import Mathlib

set_option autoImplicit false

/-!
Verification of the GalacticHire recruiter dashboard's client-side logic:
the filter engine and derived metrics of the Dashboard component, and the
interview-question add/remove flows of the InterviewQuestions component.

Modelling conventions:
* timestamps are minutes since an arbitrary epoch (`Int`); one calendar day
  is `minutesPerDay` minutes;
* JS `parseInt` is `parseIntJS`, returning `none` for NaN;
* ratings are exact rationals (`Rat`);
* the remote store of the question flows is explicit state passing, and each
  flow also returns the list of remote operations it issued.
-/

/-- Minutes in one calendar day. -/
def minutesPerDay : Int := 1440

/-- Structured candidate details attached to a submission; `experience` is a
free-text field that may be absent. -/
structure CandidateDetails where
  full_name : String
  email : String
  experience : Option String
deriving DecidableEq

/-- A candidate interview submission (the `Video` type of the dashboard).
`created_at` is an optional timestamp in minutes. -/
structure Video where
  id : String
  title : String
  candidate_details : Option CandidateDetails
  created_at : Option Int
deriving DecidableEq

/-- Date-range criterion. The field `stop` models the source field `end`
(a Lean keyword); both bounds are optional instants in minutes. -/
structure DateRange where
  start : Option Int
  stop : Option Int
deriving DecidableEq

/-- Filter criteria (`FilterOptions` in the source). -/
structure FilterOptions where
  experienceLevel : List String
  searchQuery : String
  ratingMin : Rat
  dateRange : DateRange
deriving DecidableEq

/-- Lower-cased character list of a string (JS `toLowerCase`). -/
def lowerChars (s : String) : List Char := s.toList.map Char.toLower

/-- Character-by-character test that the first list is a leading segment of
the second. -/
def listPrefixOf : List Char → List Char → Bool
  | [], _ => true
  | _ :: _, [] => false
  | a :: as, b :: bs => a == b && listPrefixOf as bs

/-- Test that `needle` occurs contiguously inside the second list
(JS `String.prototype.includes`); an empty needle always occurs. -/
def listContains (needle : List Char) : List Char → Bool
  | [] => listPrefixOf needle []
  | c :: rest => listPrefixOf needle (c :: rest) || listContains needle rest

/-- Case-insensitive substring test:
`hay.toLowerCase().includes(query.toLowerCase())`. -/
def containsCI (hay query : String) : Bool :=
  listContains (lowerChars query) (lowerChars hay)

/-- Numeric value of a character as a digit (0-9, a-z, A-Z), as JS
`parseInt` reads digits. -/
def digitVal (c : Char) : Option Nat :=
  if 48 ≤ c.toNat ∧ c.toNat ≤ 57 then some (c.toNat - 48)
  else if 97 ≤ c.toNat ∧ c.toNat ≤ 122 then some (c.toNat - 87)
  else if 65 ≤ c.toNat ∧ c.toNat ≤ 90 then some (c.toNat - 55)
  else none

/-- Longest leading run of characters that are digits valid in `radix`. -/
def takeDigits (radix : Nat) : List Char → List Nat
  | [] => []
  | c :: cs =>
    match digitVal c with
    | some v => if v < radix then v :: takeDigits radix cs else []
    | none => []

/-- Value of a digit list read in base `radix`. -/
def valOfDigits (radix : Nat) (ds : List Nat) : Nat :=
  ds.foldl (fun a d => a * radix + d) 0

/-- JS `parseInt(s, radix)`: skip leading whitespace, optional sign, then
the longest valid digit run; `none` models NaN (no digits at all). The
radix-16 autodetection for a leading "0x" is not modelled: the two call
sites use plain decimal strings and base-36 identifiers. -/
def parseIntJS (radix : Nat) (s : String) : Option Int :=
  match s.toList.dropWhile Char.isWhitespace with
  | '-' :: rest =>
    let ds := takeDigits radix rest
    if ds.isEmpty then none else some (-(valOfDigits radix ds : Int))
  | '+' :: rest =>
    let ds := takeDigits radix rest
    if ds.isEmpty then none else some (valOfDigits radix ds)
  | rest =>
    let ds := takeDigits radix rest
    if ds.isEmpty then none else some (valOfDigits radix ds)

/-- Source `matchesSearchQuery`: case-insensitive substring match against
title, candidate full name, email and experience; absent optional fields
contribute nothing. -/
def matchesSearchQuery (video : Video) (query : String) : Bool :=
  if containsCI video.title query then true
  else
    match video.candidate_details with
    | none => false
    | some candidate =>
      containsCI candidate.full_name query || containsCI candidate.email query ||
        (match candidate.experience with
         | some e => containsCI e query
         | none => false)

/-- Source `matchesExperienceLevel`: a falsy experience field (absent or the
empty string) never matches; otherwise `parseInt` the string, and NaN
compares false against every bucket bound, so no bucket matches. -/
def matchesExperienceLevel (video : Video) (levels : List String) : Bool :=
  match video.candidate_details with
  | none => false
  | some candidate =>
    match candidate.experience with
    | none => false
    | some exp =>
      if exp = "" then false
      else
        match parseIntJS 10 exp with
        | none => false
        | some expYears =>
          levels.any fun level =>
            if level = "0-2" then decide (0 ≤ expYears ∧ expYears ≤ 2)
            else if level = "3-5" then decide (3 ≤ expYears ∧ expYears ≤ 5)
            else if level = "5+" then decide (5 < expYears)
            else false

/-- Mock rating derived from the identifier:
`(parseInt(video.id, 36) % 20) / 4 + 3` with the JS truncated remainder;
`none` models NaN for an unparseable identifier. -/
def mockRating (id : String) : Option Rat :=
  match parseIntJS 36 id with
  | none => none
  | some k => some (((Int.tmod k 20 : Int) : Rat) / 4 + 3)

/-- Source `matchesRatingMin`: `mockRating >= minRating`; a NaN rating
compares false. -/
def matchesRatingMin (video : Video) (minRating : Rat) : Bool :=
  match mockRating video.id with
  | none => false
  | some r => decide (minRating ≤ r)

/-- Source `matchesDateRange`: no timestamp always matches; a timestamp
strictly before `start` is excluded; one strictly after `stop` shifted one
day forward is excluded. -/
def matchesDateRange (createdAt : Option Int) (r : DateRange) : Bool :=
  match createdAt with
  | none => true
  | some t =>
    if (match r.start with | some s => decide (t < s) | none => false) then false
    else if (match r.stop with | some e => decide (e + minutesPerDay < t) | none => false) then false
    else true

/-- The filter lambda inside `filteredVideos`: the logical AND of the active
sub-predicates, tested in source order with early returns. -/
def videoPred (filters : FilterOptions) (video : Video) : Bool :=
  if filters.searchQuery != "" && !(matchesSearchQuery video filters.searchQuery) then false
  else if !(filters.experienceLevel.contains "all") && !(matchesExperienceLevel video filters.experienceLevel) then false
  else if decide (0 < filters.ratingMin) && !(matchesRatingMin video filters.ratingMin) then false
  else if !(matchesDateRange video.created_at filters.dateRange) then false
  else true

/-- Source `filteredVideos`: `videos.filter(...)`. -/
def filteredVideos (videos : List Video) (filters : FilterOptions) : List Video :=
  videos.filter (videoPred filters)

/-- Default criteria from the Dashboard's initial filter state. -/
def defaultFilters : FilterOptions :=
  { experienceLevel := ["all"], searchQuery := "", ratingMin := 0,
    dateRange := { start := none, stop := none } }

/-- The two derived fields of `dynamicMetrics`. -/
structure DynamicMetrics where
  totalApplicants : Nat
  applicantsInProgress : Nat
deriving DecidableEq

/-- Source `dynamicMetrics`: total is the collection length, in-progress is
`Math.floor(videos.length * 0.6)`. Over exact arithmetic that floor is
`6 * n / 10`, which Nat division computes. -/
def dynamicMetrics (videos : List Video) : DynamicMetrics :=
  { totalApplicants := videos.length,
    applicantsInProgress := videos.length * 6 / 10 }

/-- An `interview` row: identifier and owning recruiter. The source also
stores a random invite code, which nothing reads. -/
structure InterviewRow where
  id : Nat
  recruiter_id : String
deriving DecidableEq

/-- An `interview_questions` row. -/
structure QuestionRow where
  id : Nat
  question : String
  order_index : Nat
  interview_id : Nat
deriving DecidableEq

/-- Local state of the InterviewQuestions component. -/
structure CompState where
  questions : List QuestionRow
  newQuestion : String
  loading : Bool
  error : Option String
deriving DecidableEq

/-- The remote store: both tables plus a fresh-id counter. -/
structure ServerState where
  interviews : List InterviewRow
  questions : List QuestionRow
  nextId : Nat
deriving DecidableEq

/-- Remote operations a flow can issue. -/
inductive RemoteOp where
  | selectInterviews (recruiter_id : String)
  | insertInterview (recruiter_id : String)
  | insertQuestion (interview_id : Nat) (text : String)
  | deleteQuestion (question_id : Nat)
deriving DecidableEq

/-- JS `String.prototype.trim`: strip leading and trailing whitespace. -/
def trimJS (s : String) : String :=
  (((s.toList.dropWhile Char.isWhitespace).reverse.dropWhile Char.isWhitespace).reverse).asString

/-- Interview rows belonging to a recruiter. -/
def interviewsFor (srv : ServerState) (rid : String) : List InterviewRow :=
  srv.interviews.filter fun iv => iv.recruiter_id == rid

/-- Remote select of the recruiter's interviews with `limit(1)`. -/
def runSelectInterviews (srv : ServerState) (rid : String) : List InterviewRow :=
  (interviewsFor srv rid).take 1

/-- Remote insert into `interview` for the recruiter. -/
def runInsertInterview (srv : ServerState) (rid : String) : InterviewRow × ServerState :=
  let row : InterviewRow := { id := srv.nextId, recruiter_id := rid }
  (row, { srv with interviews := srv.interviews ++ [row], nextId := srv.nextId + 1 })

/-- Remote insert into `interview_questions`; the insert does not set
`order_index`, modelled as the default 0. -/
def runInsertQuestion (srv : ServerState) (iid : Nat) (text : String) :
    QuestionRow × ServerState :=
  let row : QuestionRow :=
    { id := srv.nextId, question := text, order_index := 0, interview_id := iid }
  (row, { srv with questions := srv.questions ++ [row], nextId := srv.nextId + 1 })

/-- Result of one run of the add flow. -/
structure AddResult where
  comp : CompState
  srv : ServerState
  ops : List RemoteOp
deriving DecidableEq

/-- Source `addQuestion`, run against an always-successful remote store:
return unchanged on blank input; otherwise select the recruiter's interview
(limit 1), create one if none exists, insert the question, append the
returned row locally and clear the input. The source's remote-error
branches set `error` and stop early; the claims on this flow are about
successful adds, so the store here never fails. -/
def addQuestion (rid : String) (st : CompState) (srv : ServerState) : AddResult :=
  if trimJS st.newQuestion = "" then { comp := st, srv := srv, ops := [] }
  else
    let st1 : CompState := { st with loading := true, error := none }
    match runSelectInterviews srv rid with
    | iv :: _ =>
      let r := runInsertQuestion srv iv.id st.newQuestion
      let comp1 : CompState :=
        { st1 with questions := st1.questions ++ [r.1], newQuestion := "", loading := false }
      let ops1 : List RemoteOp :=
        [RemoteOp.selectInterviews rid, RemoteOp.insertQuestion iv.id st.newQuestion]
      { comp := comp1, srv := r.2, ops := ops1 }
    | [] =>
      let c := runInsertInterview srv rid
      let r := runInsertQuestion c.2 c.1.id st.newQuestion
      let comp1 : CompState :=
        { st1 with questions := st1.questions ++ [r.1], newQuestion := "", loading := false }
      let ops1 : List RemoteOp :=
        [RemoteOp.selectInterviews rid, RemoteOp.insertInterview rid,
         RemoteOp.insertQuestion c.1.id st.newQuestion]
      { comp := comp1, srv := r.2, ops := ops1 }

/-- Repeated adds: each step types a fresh input text and runs the add flow. -/
def addMany (rid : String) (txts : List String) (st : CompState) (srv : ServerState) :
    CompState × ServerState :=
  match txts with
  | [] => (st, srv)
  | t :: ts =>
    let r := addQuestion rid { st with newQuestion := t } srv
    addMany rid ts r.comp r.srv

/-- Result of one run of the delete flow. -/
structure DelResult where
  comp : CompState
  ops : List RemoteOp
deriving DecidableEq

/-- Source `deleteQuestion`: issue one remote delete; on success drop the
identifier from the local list, on failure surface the message and leave
the list alone. -/
def deleteQuestion (rem : Except String Unit) (qid : Nat) (st : CompState) : DelResult :=
  let st1 : CompState := { st with loading := true, error := none }
  match rem with
  | Except.error msg =>
    let comp1 : CompState := { st1 with error := some msg, loading := false }
    { comp := comp1, ops := [RemoteOp.deleteQuestion qid] }
  | Except.ok _ =>
    let kept := st1.questions.filter fun q => !(q.id == qid)
    let comp1 : CompState := { st1 with questions := kept, loading := false }
    { comp := comp1, ops := [RemoteOp.deleteQuestion qid] }

/-- Sample record used by concrete witnesses. -/
def sampleDetails : CandidateDetails :=
  { full_name := "Ada Lovelace", email := "ada@example.com", experience := some "6 years" }

/-- Sample video used by concrete witnesses. -/
def sampleVideo : Video :=
  { id := "b", title := "Frontend Engineer", candidate_details := some sampleDetails,
    created_at := some 28414080 }

/-- Recognizer for interview-creating remote operations. -/
def isInsertInterview : RemoteOp → Bool
  | RemoteOp.insertInterview _ => true
  | _ => false

/-- Sample initial component and server states for the flow witnesses. -/
def witComp : CompState :=
  { questions := [], newQuestion := "Q1", loading := false, error := none }

def witSrv : ServerState := { interviews := [], questions := [], nextId := 0 }

def witR1 : AddResult := addQuestion "r1" witComp witSrv

def witSt2 : CompState := { witR1.comp with newQuestion := "Q2" }

def witR2 : AddResult := addQuestion "r1" witSt2 witR1.srv

/-- Sample populated component state for the delete witness. -/
def witCompDel : CompState :=
  { questions := [⟨1, "Q1", 0, 7⟩, ⟨2, "Q2", 1, 7⟩], newQuestion := "",
    loading := false, error := none }

/-- Sample blank-input component state. -/
def witCompBlank : CompState :=
  { questions := [], newQuestion := "   ", loading := false, error := none }

/-! ## Helper lemmas -/

theorem if_guard (b x : Bool) : (if b then false else x) = (!b && x) := by
  cases b <;> simp

/-- The filter lambda as a conjunction of its four pass conditions. -/
theorem videoPred_eq (f : FilterOptions) (v : Video) :
    videoPred f v =
      ((f.searchQuery == "" || matchesSearchQuery v f.searchQuery) &&
        (((f.experienceLevel.contains "all" : Bool) || matchesExperienceLevel v f.experienceLevel) &&
          ((!(decide (0 < f.ratingMin)) || matchesRatingMin v f.ratingMin) &&
            matchesDateRange v.created_at f.dateRange))) := by
  unfold videoPred
  simp only [if_guard, Bool.not_and, Bool.not_not, bne, Bool.and_true]

theorem matchesDateRange_open (t : Option Int) :
    matchesDateRange t { start := none, stop := none } = true := by
  cases t <;> simp [matchesDateRange]

theorem videoPred_default (v : Video) : videoPred defaultFilters v = true := by
  rw [videoPred_eq]
  simp [defaultFilters, matchesDateRange_open]

theorem listPrefixOf_refl (l : List Char) : listPrefixOf l l = true := by
  induction l with
  | nil => rfl
  | cons a as ih => simp [listPrefixOf, ih]

theorem listContains_nil (hay : List Char) : listContains [] hay = true := by
  cases hay <;> simp [listContains, listPrefixOf]

theorem listContains_refl (l : List Char) : listContains l l = true := by
  cases l with
  | nil => exact listContains_nil []
  | cons c rest => simp [listContains, listPrefixOf_refl]

theorem containsCI_empty (s : String) : containsCI s "" = true := by
  unfold containsCI lowerChars
  simpa using listContains_nil (s.toList.map Char.toLower)

theorem containsCI_self (s : String) : containsCI s s = true :=
  listContains_refl (lowerChars s)

/-! ## Examples exercising the embedding -/

example : parseIntJS 10 "3 years" = some 3 := by decide
example : parseIntJS 10 "" = none := by decide
example : parseIntJS 36 "z" = some 35 := by decide
example : parseIntJS 36 "10" = some 36 := by decide
example : parseIntJS 10 " -7x" = some (-7) := by decide
example : containsCI "Hello World" "o w" = true := by decide
example : containsCI "abc" "d" = false := by decide
example : parseIntJS 36 "b" = some 11 := by decide

/-! ## Claim theorems -/

/-- C1: date-range predicate. A record without a timestamp matches any
range; with a start bound, a timestamp strictly before it is excluded and
one at or after it passes the start check; with an end bound `e` (midnight
opening the end day), a record matches exactly when its timestamp is at
most `e` plus one day, so the whole end day is inclusive and anything
strictly after the midnight that opens the day after the end date is
excluded. -/
theorem matchesDateRange_end_iff (rs : Option Int) (t e : Int)
    (hstart : ∀ s', rs = some s' → s' ≤ t) :
    (matchesDateRange (some t) { start := rs, stop := some e } = true
      ↔ t ≤ e + minutesPerDay) := by
  cases rs with
  | none =>
    simp only [matchesDateRange]
    simp
  | some s' =>
    have hst : ¬ (t < s') := not_lt.mpr (hstart s' rfl)
    simp only [matchesDateRange]
    simp [hst]

theorem c1_dateRange_spec (r : DateRange) (t s e : Int) :
    matchesDateRange none r = true
    ∧ (r.start = some s → t < s → matchesDateRange (some t) r = false)
    ∧ (r.start = some s → s ≤ t → r.stop = none → matchesDateRange (some t) r = true)
    ∧ ((∀ s', r.start = some s' → s' ≤ t) → r.stop = some e →
        (matchesDateRange (some t) r = true ↔ t ≤ e + minutesPerDay))
    ∧ ((∀ s', r.start = some s' → s' ≤ t) → r.stop = some e →
        e ≤ t → t < e + minutesPerDay → matchesDateRange (some t) r = true) := by
  obtain ⟨rs, re⟩ := r
  refine ⟨rfl, ?_, ?_, ?_, ?_⟩
  · intro hs ht
    subst hs
    simp [matchesDateRange, ht]
  · intro hs ht he
    subst hs; subst he
    simp [matchesDateRange, not_lt.mpr ht]
  · intro hstart he
    subst he
    exact matchesDateRange_end_iff rs t e hstart
  · intro hstart he hle hlt
    subst he
    exact (matchesDateRange_end_iff rs t e hstart).mpr (le_of_lt hlt)

/-- C1 witness: with end date 2024-01-10 (midnight minute 28414080 since
epoch), a record at 2024-01-10 23:59 matches and one at 2024-01-12 00:01
does not. -/
theorem c1_dateRange_witness :
    matchesDateRange (some 28415519) { start := none, stop := some 28414080 } = true
    ∧ matchesDateRange (some 28416961) { start := none, stop := some 28414080 } = false := by
  constructor
  · exact (c1_dateRange_spec ⟨none, some 28414080⟩ 28415519 0 28414080).2.2.2.2
      (fun s' h => by cases h) rfl (by decide) (by decide)
  · have h := (c1_dateRange_spec ⟨none, some 28414080⟩ 28416961 0 28414080).2.2.2.1
      (fun s' hh => by cases hh) rfl
    have hnot : ¬ ((28416961 : Int) ≤ 28414080 + minutesPerDay) := by decide
    cases hmatch : matchesDateRange (some 28416961) ({ start := none, stop := some 28414080 } : DateRange) with
    | false => rfl
    | true => exact absurd (h.mp hmatch) hnot

/-- C5: filtering is idempotent, and the default criteria are the identity:
the whole input collection comes back unchanged in membership and order. -/
theorem c5_filter_idempotent_default (vs : List Video) (f : FilterOptions) :
    filteredVideos (filteredVideos vs f) f = filteredVideos vs f
    ∧ filteredVideos vs defaultFilters = vs := by
  constructor
  · simp [filteredVideos, List.filter_filter]
  · exact List.filter_eq_self.mpr fun v _ => videoPred_default v

/-- C6: the filtered view is a sublist (hence a subset, in order) of the
fetched collection, and filtering is a pure function of its two inputs. -/
theorem c6_subset_deterministic (vs : List Video) (f : FilterOptions) :
    List.Sublist (filteredVideos vs f) vs
    ∧ (∀ v, v ∈ filteredVideos vs f → v ∈ vs)
    ∧ (∀ vs2 f2, vs2 = vs → f2 = f → filteredVideos vs2 f2 = filteredVideos vs f) := by
  refine ⟨?_, ?_, ?_⟩
  · simp only [filteredVideos]
    exact List.filter_sublist vs
  · intro v hv
    exact (List.mem_filter.mp hv).1
  · intro vs2 f2 h1 h2
    rw [h1, h2]

/-- C6 witness at a concrete collection and criteria. -/
theorem c6_subset_witness :
    ∀ v, v ∈ filteredVideos [sampleVideo] defaultFilters → v ∈ [sampleVideo] :=
  (c6_subset_deterministic [sampleVideo] defaultFilters).2.1

/-- C9: total is the collection length; in-progress is the floor of 60% of
the total, a function of the total alone; 10 records give 6. -/
theorem c9_metrics_spec (vs : List Video) :
    (dynamicMetrics vs).totalApplicants = vs.length
    ∧ ((dynamicMetrics vs).applicantsInProgress : Int) = Int.floor ((6 / 10 : Rat) * vs.length)
    ∧ (∀ ws : List Video, ws.length = vs.length → dynamicMetrics ws = dynamicMetrics vs)
    ∧ (vs.length = 10 → (dynamicMetrics vs).applicantsInProgress = 6) := by
  refine ⟨rfl, ?_, ?_, ?_⟩
  · have h : ((6 : Rat) / 10) * vs.length = ((6 * vs.length : Nat) : Rat) / ((10 : Nat) : Rat) := by
      push_cast
      ring
    rw [h, Rat.floor_natCast_div_natCast]
    simp only [dynamicMetrics]
    rw [Nat.mul_comm vs.length 6]
    exact Int.ofNat_ediv (6 * vs.length) 10
  · intro ws hlen
    simp [dynamicMetrics, hlen]
  · intro h10
    simp [dynamicMetrics, h10]

/-- C9 witness: ten records yield an in-progress metric of six. -/
theorem c9_metrics_witness :
    (dynamicMetrics (List.replicate 10 sampleVideo)).applicantsInProgress = 6 :=
  (c9_metrics_spec (List.replicate 10 sampleVideo)).2.2.2 (by simp)

/-- C2: experience buckets. With a parseable leading integer n, bucket
"0-2" matches iff 0 ≤ n ≤ 2, "3-5" iff 3 ≤ n ≤ 5, "5+" iff n > 5; a record
with no parseable experience (missing details, missing or unparseable
string) matches no bucket; and a selection containing "all" bypasses
bucketing in the composed filter. -/
theorem c2_experience_spec (v : Video) (cd : CandidateDetails) (exp : String) (n : Int)
    (f : FilterOptions) :
    (v.candidate_details = some cd → cd.experience = some exp → parseIntJS 10 exp = some n →
      ((matchesExperienceLevel v ["0-2"] = true ↔ 0 ≤ n ∧ n ≤ 2)
        ∧ (matchesExperienceLevel v ["3-5"] = true ↔ 3 ≤ n ∧ n ≤ 5)
        ∧ (matchesExperienceLevel v ["5+"] = true ↔ 5 < n)))
    ∧ (v.candidate_details = some cd → cd.experience = some exp → parseIntJS 10 exp = none →
        ∀ levels, matchesExperienceLevel v levels = false)
    ∧ (v.candidate_details = none → ∀ levels, matchesExperienceLevel v levels = false)
    ∧ (v.candidate_details = some cd → cd.experience = none →
        ∀ levels, matchesExperienceLevel v levels = false)
    ∧ (f.experienceLevel.contains "all" = true →
        videoPred f v = videoPred { f with experienceLevel := ["all"] } v) := by
  refine ⟨?_, ?_, ?_, ?_, ?_⟩
  · intro hcd hexp hp
    have hne : exp ≠ "" := by
      intro he
      rw [he] at hp
      have hnone : parseIntJS 10 "" = none := by decide
      rw [hnone] at hp
      cases hp
    refine ⟨?_, ?_, ?_⟩ <;> simp [matchesExperienceLevel, hcd, hexp, hne, hp]
  · intro hcd hexp hp levels
    simp [matchesExperienceLevel, hcd, hexp, hp]
  · intro hcd levels
    simp [matchesExperienceLevel, hcd]
  · intro hcd hexp levels
    simp [matchesExperienceLevel, hcd, hexp]
  · intro hall
    have hall' : "all" ∈ f.experienceLevel := by simpa using hall
    rw [videoPred_eq, videoPred_eq]
    simp [hall']

/-- C2 witness: experience "6 years" matches only the "5+" bucket. -/
theorem c2_experience_witness :
    matchesExperienceLevel sampleVideo ["5+"] = true
    ∧ matchesExperienceLevel sampleVideo ["0-2"] = false
    ∧ matchesExperienceLevel sampleVideo ["3-5"] = false := by
  have h := (c2_experience_spec sampleVideo sampleDetails "6 years" 6 defaultFilters).1
    rfl rfl (by decide)
  refine ⟨h.2.2.mpr (by decide), ?_, ?_⟩
  · cases hm : matchesExperienceLevel sampleVideo ["0-2"] with
    | false => rfl
    | true => exact absurd (h.1.mp hm) (by decide)
  · cases hm : matchesExperienceLevel sampleVideo ["3-5"] with
    | false => rfl
    | true => exact absurd (h.2.1.mp hm) (by decide)

/-- C8: text match. An empty query matches every record; a non-empty query
equal to the title matches regardless of other fields; and in general the
predicate holds exactly when the case-insensitive substring test succeeds
on the title, full name, email, or experience. -/
theorem c8_search_spec (v : Video) (q : String) :
    matchesSearchQuery v "" = true
    ∧ (q ≠ "" → q = v.title → matchesSearchQuery v q = true)
    ∧ (matchesSearchQuery v q = true ↔
        (containsCI v.title q = true
          ∨ ∃ cd, v.candidate_details = some cd ∧
              (containsCI cd.full_name q = true ∨ containsCI cd.email q = true
                ∨ ∃ e, cd.experience = some e ∧ containsCI e q = true))) := by
  refine ⟨?_, ?_, ?_⟩
  · simp [matchesSearchQuery, containsCI_empty]
  · intro hne ht
    subst ht
    simp [matchesSearchQuery, containsCI_self]
  · cases hT : containsCI v.title q with
    | true => simp [matchesSearchQuery, hT]
    | false =>
      cases hcd : v.candidate_details with
      | none => simp [matchesSearchQuery, hT, hcd]
      | some cd =>
        cases hexp : cd.experience with
        | none => simp [matchesSearchQuery, hT, hcd, hexp]
        | some e => simp [matchesSearchQuery, hT, hcd, hexp, or_assoc]

/-- C8 witness: the sample record's exact title matches it. -/
theorem c8_search_witness : matchesSearchQuery sampleVideo "Frontend Engineer" = true :=
  (c8_search_spec sampleVideo "Frontend Engineer").2.1 (by decide) rfl

/-- C7: rating threshold. The predicate depends only on the identifier;
for a parseable non-negative identifier the derived rating is a fixed
pseudo-score in [3, 31/4]; a record with a derived rating matches exactly
when the rating is at least the threshold; and with threshold 0 the
composed filter never consults the rating. -/
theorem c7_rating_spec (v : Video) (m : Rat) (k : Int) (f : FilterOptions) :
    (∀ w : Video, v.id = w.id → matchesRatingMin v m = matchesRatingMin w m)
    ∧ (parseIntJS 36 v.id = some k → 0 ≤ k →
        ∃ r, mockRating v.id = some r ∧ 3 ≤ r ∧ r ≤ 31 / 4)
    ∧ (∀ r, mockRating v.id = some r → (matchesRatingMin v m = true ↔ m ≤ r))
    ∧ (f.ratingMin = 0 →
        videoPred f v =
          ((f.searchQuery == "" || matchesSearchQuery v f.searchQuery) &&
            (((f.experienceLevel.contains "all" : Bool) || matchesExperienceLevel v f.experienceLevel) &&
              matchesDateRange v.created_at f.dateRange))) := by
  refine ⟨?_, ?_, ?_, ?_⟩
  · intro w hid
    simp [matchesRatingMin, hid]
  · intro hp hk
    refine ⟨((Int.tmod k 20 : Int) : Rat) / 4 + 3, by simp [mockRating, hp], ?_, ?_⟩
    · have h0 : (0 : Int) ≤ Int.tmod k 20 := Int.tmod_nonneg 20 hk
      have h0q : (0 : Rat) ≤ ((Int.tmod k 20 : Int) : Rat) := by exact_mod_cast h0
      linarith
    · have h1 : Int.tmod k 20 < 20 := Int.tmod_lt_of_pos k (by norm_num)
      have h1q : ((Int.tmod k 20 : Int) : Rat) ≤ 19 := by
        exact_mod_cast (by omega : Int.tmod k 20 ≤ 19)
      linarith
  · intro r hr
    simp [matchesRatingMin, hr]
  · intro h0
    rw [videoPred_eq, h0]
    simp

/-- C7 witness: the sample identifier "b" parses in base 36 and yields a
rating inside the fixed range. -/
theorem c7_rating_witness :
    ∃ r, mockRating sampleVideo.id = some r ∧ 3 ≤ r ∧ r ≤ 31 / 4 :=
  (c7_rating_spec sampleVideo 0 11 defaultFilters).2.1 (by decide) (by decide)

theorem addQuestion_empty_case (rid : String) (st : CompState) (srv : ServerState)
    (h1 : trimJS st.newQuestion ≠ "") (h0 : interviewsFor srv rid = []) :
    interviewsFor (addQuestion rid st srv).srv rid = [⟨srv.nextId, rid⟩]
    ∧ (addQuestion rid st srv).comp.questions
        = st.questions ++ [⟨srv.nextId + 1, st.newQuestion, 0, srv.nextId⟩]
    ∧ (addQuestion rid st srv).ops.countP isInsertInterview = 1 := by
  have hsel : runSelectInterviews srv rid = [] := by
    simp [runSelectInterviews, h0]
  refine ⟨?_, ?_, ?_⟩
  · simp only [addQuestion, if_neg h1, hsel, runInsertInterview, runInsertQuestion]
    simp only [interviewsFor] at h0 ⊢
    simp [List.filter_append, h0]
  · simp only [addQuestion, if_neg h1, hsel, runInsertInterview, runInsertQuestion]
  · simp only [addQuestion, if_neg h1, hsel, runInsertInterview, runInsertQuestion]
    simp [List.countP_cons, isInsertInterview]

theorem addQuestion_cons_case (rid : String) (st : CompState) (srv : ServerState)
    (iv : InterviewRow) (rest : List InterviewRow)
    (h1 : trimJS st.newQuestion ≠ "") (hsel : interviewsFor srv rid = iv :: rest) :
    (addQuestion rid st srv).srv.interviews = srv.interviews
    ∧ (addQuestion rid st srv).comp.questions
        = st.questions ++ [⟨srv.nextId, st.newQuestion, 0, iv.id⟩]
    ∧ (addQuestion rid st srv).ops.countP isInsertInterview = 0 := by
  have hsel1 : runSelectInterviews srv rid = [iv] := by
    simp [runSelectInterviews, hsel]
  refine ⟨?_, ?_, ?_⟩
  · simp only [addQuestion, if_neg h1, hsel1, runInsertQuestion]
  · simp only [addQuestion, if_neg h1, hsel1, runInsertQuestion]
  · simp only [addQuestion, if_neg h1, hsel1, runInsertQuestion]
    simp [List.countP_cons, isInsertInterview]

theorem interviewsFor_addQuestion_le (rid : String) (st : CompState) (srv : ServerState)
    (h : (interviewsFor srv rid).length ≤ 1) :
    (interviewsFor (addQuestion rid st srv).srv rid).length ≤ 1 := by
  by_cases hb : trimJS st.newQuestion = ""
  · simp only [addQuestion, if_pos hb]
    exact h
  · cases hsel : interviewsFor srv rid with
    | nil =>
      have E := addQuestion_empty_case rid st srv hb hsel
      rw [E.1]
      simp
    | cons iv rest =>
      have C := addQuestion_cons_case rid st srv iv rest hb hsel
      have hsame : interviewsFor (addQuestion rid st srv).srv rid = interviewsFor srv rid := by
        simp only [interviewsFor, C.1]
      rw [hsame]
      exact h

theorem addMany_le (rid : String) (txts : List String) (st : CompState) (srv : ServerState)
    (h : (interviewsFor srv rid).length ≤ 1) :
    (interviewsFor (addMany rid txts st srv).2 rid).length ≤ 1 := by
  induction txts generalizing st srv with
  | nil => simpa [addMany] using h
  | cons t ts ih =>
    simp only [addMany]
    exact ih _ _ (interviewsFor_addQuestion_le rid _ srv h)

/-- C3: add-question flow. From a recruiter with no interviews, the first
successful add issues exactly one interview creation and attaches the new
question to the created interview; a second add reuses that interview
(creating none) and attaches its question to the same interview; and any
sequence of repeated adds leaves the recruiter with at most one interview. -/
theorem c3_add_question_spec (rid : String) (st st2 : CompState) (srv : ServerState)
    (txt2 : String) (txts : List String) (r1 r2 : AddResult)
    (h0 : interviewsFor srv rid = [])
    (h1 : trimJS st.newQuestion ≠ "")
    (h2 : trimJS txt2 ≠ "")
    (hr1 : r1 = addQuestion rid st srv)
    (hst2 : st2 = { r1.comp with newQuestion := txt2 })
    (hr2 : r2 = addQuestion rid st2 r1.srv) :
    ((interviewsFor r1.srv rid).length = 1
      ∧ r1.ops.countP isInsertInterview = 1
      ∧ (∃ iv q, interviewsFor r1.srv rid = [iv]
          ∧ r1.comp.questions = st.questions ++ [q]
          ∧ q.interview_id = iv.id ∧ q.question = st.newQuestion
          ∧ interviewsFor r2.srv rid = [iv]
          ∧ r2.ops.countP isInsertInterview = 0
          ∧ ∃ q2, r2.comp.questions = r1.comp.questions ++ [q2]
              ∧ q2.interview_id = iv.id ∧ q2.question = txt2))
    ∧ (interviewsFor (addMany rid txts st srv).2 rid).length ≤ 1 := by
  subst hr1; subst hst2; subst hr2
  have E := addQuestion_empty_case rid st srv h1 h0
  obtain ⟨hIv, hQ, hCnt⟩ := E
  have h2' : trimJS ({ (addQuestion rid st srv).comp with newQuestion := txt2 } : CompState).newQuestion ≠ "" := h2
  have C := addQuestion_cons_case rid
    { (addQuestion rid st srv).comp with newQuestion := txt2 }
    (addQuestion rid st srv).srv ⟨srv.nextId, rid⟩ [] h2' hIv
  obtain ⟨hSame, hQ2, hCnt2⟩ := C
  refine ⟨⟨by rw [hIv]; rfl, hCnt, ⟨srv.nextId, rid⟩,
    ⟨srv.nextId + 1, st.newQuestion, 0, srv.nextId⟩, hIv, hQ, rfl, rfl, ?_, hCnt2, ?_⟩, ?_⟩
  · have : interviewsFor (addQuestion rid
        { (addQuestion rid st srv).comp with newQuestion := txt2 }
        (addQuestion rid st srv).srv).srv rid
        = interviewsFor (addQuestion rid st srv).srv rid := by
      simp only [interviewsFor, hSame]
    rw [this, hIv]
  · exact ⟨⟨(addQuestion rid st srv).srv.nextId, txt2, 0, srv.nextId⟩, hQ2, rfl, rfl⟩
  · exact addMany_le rid txts st srv (by rw [h0]; simp)

/-- C3 witness: concrete first and second adds for a fresh recruiter. -/
theorem c3_add_question_witness :
    (interviewsFor witR1.srv "r1").length = 1
    ∧ witR1.ops.countP isInsertInterview = 1
    ∧ witR2.ops.countP isInsertInterview = 0 := by
  have h := c3_add_question_spec "r1" witComp witSt2 witSrv "Q2" [] witR1 witR2
    (by decide) (by decide) (by decide) rfl rfl rfl
  obtain ⟨⟨hl, hc, iv, q, hiv, hq, hqi, hqt, hiv2, hc2, hrest⟩, hmany⟩ := h
  exact ⟨hl, hc, hc2⟩

/-- C4: remove-question flow. Deleting issues exactly one remote delete; on
success the local list keeps exactly the entries whose identifier differs,
in their original order, and the error is cleared; on failure the local
list is unchanged and the error message is set. -/
theorem c4_delete_spec (st : CompState) (qid : Nat) (rem : Except String Unit) :
    (deleteQuestion rem qid st).ops = [RemoteOp.deleteQuestion qid]
    ∧ (match rem with
       | Except.ok _ =>
           (deleteQuestion rem qid st).comp.questions
               = st.questions.filter (fun q => !(q.id == qid))
           ∧ (deleteQuestion rem qid st).comp.error = none
           ∧ ∀ q, q ∈ st.questions →
               (q ∈ (deleteQuestion rem qid st).comp.questions ↔ q.id ≠ qid)
       | Except.error msg =>
           (deleteQuestion rem qid st).comp.questions = st.questions
           ∧ (deleteQuestion rem qid st).comp.error = some msg) := by
  cases rem with
  | ok u =>
    refine ⟨rfl, rfl, rfl, ?_⟩
    intro q hq
    simp [deleteQuestion, List.mem_filter, hq]
  | error msg => exact ⟨rfl, rfl, rfl⟩

/-- C4 witness: a successful delete keeps exactly the other entries and a
failed delete changes nothing locally. -/
theorem c4_delete_witness :
    (deleteQuestion (Except.ok ()) 1 witCompDel).comp.questions
        = witCompDel.questions.filter (fun q => !(q.id == 1))
    ∧ (deleteQuestion (Except.error "boom") 1 witCompDel).comp.questions
        = witCompDel.questions := by
  exact ⟨(c4_delete_spec witCompDel 1 (Except.ok ())).2.1,
    (c4_delete_spec witCompDel 1 (Except.error "boom")).2.1⟩

/-- C10: a blank (empty or whitespace-only) input makes addQuestion a
complete no-op: no remote operation is issued and the component and server
states are returned unchanged. -/
theorem c10_blank_spec (rid : String) (st : CompState) (srv : ServerState)
    (h : trimJS st.newQuestion = "") :
    addQuestion rid st srv = { comp := st, srv := srv, ops := [] } := by
  simp [addQuestion, h]

/-- C10 witness: whitespace-only input leaves everything untouched. -/
theorem c10_blank_witness :
    addQuestion "r1" witCompBlank witSrv
      = { comp := witCompBlank, srv := witSrv, ops := [] } :=
  c10_blank_spec "r1" witCompBlank witSrv (by decide)
